import Mathlib

/-!
Verification of the sensitive-data detector (`sensitive_data_detector.py`).

The Python source is shallowly embedded as follows:
* byte buffers are `List Nat` (each entry one byte value),
* decoded text is `List Char`,
* Python floats are modelled as exact rationals `ℚ` (the spec treats scores,
  thresholds and means as exact arithmetic),
* the byte entropy is real-valued (`ℝ`) because of `math.log2`,
* the detector object (`self`) is the explicit state `Detector`,
* the file system is an explicit map `List Char → Option (List Nat)` giving the
  result of `open(path,'rb').read(4096)` (`none` models a read failure),
* Python's utf-8 `errors='ignore'` decoder composed with `str.lower`, and the
  `re` regular-expression engine applied to `RE_SENSITIVE_PATTERNS`, are
  external-library facilities; they enter the model as the explicit
  environment `Env` and theorems quantify over it.
-/

namespace Detector

/-- The global `BINARY_MARKERS` set of the source (also the
`binary_signatures` dict of `_is_known_binary_type`, which lists the same
eight byte strings): ZIP/Office `PK`, `%PDF`, JPEG, `GIF89a`, ZIP, GZIP,
BZIP2 and 7Z magic bytes. -/
def BINARY_MARKERS : List (List Nat) :=
  [[0x50, 0x4B],
   [0x25, 0x50, 0x44, 0x46],
   [0xFF, 0xD8, 0xFF],
   [0x47, 0x49, 0x46, 0x38, 0x39, 0x61],
   [0x50, 0x4B, 0x03, 0x04],
   [0x1F, 0x8B, 0x08],
   [0x42, 0x5A, 0x68],
   [0x37, 0x7A, 0xBC, 0xAF, 0x27, 0x1C]]

/-- The `SENSITIVE_KEYWORDS` set literal of the source, in declaration order.
The Python literal is a set, so duplicated entries (the literal repeats
`支付方式`) collapse; `.dedup` reproduces that set semantics. -/
def SENSITIVE_KEYWORDS : List (List Char) :=
  (["密码", "password", "账号", "account",
    "身份证", "id card", "信用卡", "credit card",
    "私密", "private", "机密", "confidential",
    "secret", "sensitive", "internal", "restricted",
    "token", "key", "auth", "certificate",
    "价格", "金额", "total price", "price", "cost", "amount", "total", "费用", "payment",
    "人民币", "美元", "欧元", "￥", "$", "€", "¥", "总价", "账单", "发票", "付款",
    "病历号", "药品", "医生", "医疗", "诊断", "病例", "手术", "医院", "住院", "病床",
    "治疗", "健康", "疾病", "糖尿病", "高血压", "冠心病", "癌症", "肺结核", "骨折",
    "药品名称", "处方", "医疗记录", "疫苗", "药物", "医生姓名", "病人信息",
    "购买时间", "订单号", "支付方式", "交易ID", "支付", "购买", "订单", "发货", "物流",
    "发票号", "支付平台", "购物", "购物车", "支付状态", "支付方式", "支付金额"].map
    String.toList).dedup

/-- External-library environment: `decodeLower` models
`content.decode('utf-8', errors='ignore').lower()` (total, never raises) and
`regexHit` models `any(p.search(text) for p in RE_SENSITIVE_PATTERNS.values())`
(the scorer adds its bonus once and breaks at the first matching pattern, so
only this boolean is observable). -/
structure Env where
  decodeLower : List Nat → List Char
  regexHit : List Char → Bool

/-- `any(marker in content for marker in BINARY_MARKERS)`: some marker occurs
anywhere in the buffer (substring search, not only as a prefix). -/
def hasBinaryMarker (content : List Nat) : Bool :=
  BINARY_MARKERS.any fun m => decide (m <:+: content)

/-- `sum(1 for keyword in SENSITIVE_KEYWORDS if keyword in text)`: the number
of distinct configured keywords occurring as substrings of the text. -/
def keywordHitCount (text : List Char) : ℕ :=
  (SENSITIVE_KEYWORDS.filter fun k => decide (k <:+: text)).length

/-- `any(pattern in text for pattern in self.learned_patterns)`. -/
def learnedHit (learned : Finset (List Char)) (text : List Char) : Bool :=
  decide (∃ p ∈ learned, p <:+: text)

/-- `_calculate_entropy`: Shannon entropy of the byte histogram, in bits.
The Python loop runs over `counts.values()` (one count per distinct observed
byte value) and subtracts `p * log2 p` from an accumulator starting at 0;
empty input returns 0.0 up front. -/
noncomputable def calculate_entropy (data : List Nat) : ℝ :=
  if data = [] then 0
  else
    Finset.sum data.toFinset fun b =>
      -(((data.count b : ℝ) / (data.length : ℝ)) *
        Real.logb 2 ((data.count b : ℝ) / (data.length : ℝ)))

/-- The spec's formula for entropy, written from its words: minus the sum of
`p(b) * log2 (p(b))` over the observed byte values `b` of the histogram. -/
noncomputable def shannonEntropy (data : List Nat) : ℝ :=
  -(Finset.sum data.toFinset fun b =>
      ((data.count b : ℝ) / (data.length : ℝ)) *
        Real.logb 2 ((data.count b : ℝ) / (data.length : ℝ)))

open scoped Classical in
/-- The high-entropy signal of `_analyze_content`: the source guards the
entropy computation with `if content:` and then tests `entropy > 6.5`. -/
noncomputable def highEntropy (content : List Nat) : Bool :=
  decide (content ≠ [] ∧ 13 / 2 < calculate_entropy content)

/-- `_analyze_content` with the text-dependent signals already reduced to
their values: starts at 0, adds 0.3 for a binary marker, `0.1 * min(kw, 5)`
for keyword hits, flat 0.2 for a regex hit, 0.3 for a learned-pattern hit,
0.2 for high entropy, and returns `min(1.0, score)`. -/
def scoreOfSignals (bin : Bool) (kw : ℕ) (pat lrn ent : Bool) : ℚ :=
  min 1 ((if bin then 3 / 10 else 0)
    + 1 / 10 * ((min kw 5 : ℕ) : ℚ)
    + (if pat then 2 / 10 else 0)
    + (if lrn then 3 / 10 else 0)
    + (if ent then 2 / 10 else 0))

/-- `_analyze_content(content)`: the scorer. The source's `try/except` around
the text block is dead (decoding with `errors='ignore'`, substring tests and
`re.search` are total), so the model adds all five contributions
unconditionally in source order. -/
noncomputable def analyze_content (env : Env) (learned : Finset (List Char))
    (content : List Nat) : ℚ :=
  let text := env.decodeLower content
  min 1 ((if hasBinaryMarker content then 3 / 10 else 0)
    + 1 / 10 * ((min (keywordHitCount text) 5 : ℕ) : ℚ)
    + (if env.regexHit text then 2 / 10 else 0)
    + (if learnedHit learned text then 3 / 10 else 0)
    + (if highEntropy content then 2 / 10 else 0))

/-- The mutable state of a `SensitiveDataDetector` object: the adaptive
threshold, the learned word-window contexts (a Python set), the unused
`feature_patterns` mapping kept for persistence, the threshold history and
the per-path classification cache (a Python dict from file path to boolean
verdict). -/
structure DetectorState where
  current_threshold : ℚ
  learned_patterns : Finset (List Char)
  feature_patterns : List (List Char × List Char)
  threshold_history : List ℚ
  cache : List (List Char × Bool)

/-- `_init_base_rules`: threshold 0.35, empty learned set, empty feature map,
empty history; `__init__` also creates the empty cache. -/
def initState : DetectorState :=
  { current_threshold := 35 / 100
    learned_patterns := ∅
    feature_patterns := []
    threshold_history := []
    cache := [] }

/-- Python dict lookup `cache[file_path]` / `file_path in self.cache`. -/
def cacheLookup (cache : List (List Char × Bool)) (p : List Char) : Option Bool :=
  match cache with
  | [] => none
  | (q, v) :: rest => if q = p then some v else cacheLookup rest p

/-- The history after `self.threshold_history.append(score)` followed by
`self.threshold_history.pop(0)` when the length exceeds 1000. -/
def clipped_history (h : List ℚ) (s : ℚ) : List ℚ :=
  if 1000 < (h ++ [s]).length then (h ++ [s]).tail else h ++ [s]

/-- The tail of `_learn_from_file` (the Rule Store's `recordSample`): append
the score to `threshold_history`, `pop(0)` if the length exceeds 1000, then
recompute `current_threshold` as the arithmetic mean of the (now surely
non-empty) updated history; the source still guards the mean with
`if self.threshold_history:`. -/
def record_sample (st : DetectorState) (s : ℚ) : DetectorState :=
  { st with
    threshold_history := clipped_history st.threshold_history s
    current_threshold :=
      if clipped_history st.threshold_history s = [] then st.current_threshold
      else (clipped_history st.threshold_history s).sum /
        ((clipped_history st.threshold_history s).length : ℚ) }

/-- The Rule Store's `addLearnedContext`:
`self.learned_patterns.add(context)`, Python set insertion. -/
def add_learned_context (st : DetectorState) (ctx : List Char) : DetectorState :=
  { st with learned_patterns := insert ctx st.learned_patterns }

/-- The invariant stated by the spec for the Rule Store: whenever the history
is non-empty the threshold is its arithmetic mean, and the history never
exceeds 1000 entries. -/
def rule_invariant (st : DetectorState) : Prop :=
  (st.threshold_history ≠ [] →
    st.current_threshold = st.threshold_history.sum / (st.threshold_history.length : ℚ)) ∧
  st.threshold_history.length ≤ 1000

/-- The parsed content of `learned_rules.json` as `load_rules` consumes it:
each field is read with `data.get(k, default)`, so each may be absent. -/
structure RulesData where
  patterns : Option (List (List Char))
  features : Option (List (List Char × List Char))
  threshold : Option ℚ
  history : Option (List ℚ)

/-- `load_rules`. The argument models the outcome of the file access:
`none` — the rules file does not exist (`os.path.exists` is false);
`some none` — the file exists but reading or parsing it raised (the
`except` branch logs and returns `False` before any field was assigned);
`some (some d)` — `json.load` produced `d`, and the four fields are copied
into the state with their `data.get` defaults. Every branch returns rather
than raising. -/
def load_rules (st : DetectorState) (file : Option (Option RulesData)) :
    DetectorState × Bool :=
  match file with
  | none => (st, false)
  | some none => (st, false)
  | some (some d) =>
    ({ st with
        learned_patterns := (d.patterns.getD []).toFinset
        feature_patterns := d.features.getD []
        current_threshold := d.threshold.getD (35 / 100)
        threshold_history := d.history.getD [] }, true)

/-- `save_rules`: serializing cannot fail on this state model, so the only
failure source is the file write; the `except` branch logs and returns
`False`, the success branch returns `True`. Either way the state is
untouched and nothing propagates to the caller. -/
def save_rules (write : Except Unit Unit) : Bool :=
  match write with
  | Except.ok _ => true
  | Except.error _ => false

/-- Index of the last occurrence of `c` in `p`, if any (CPython's
`str.rfind`). -/
def rfindIdx (p : List Char) (c : Char) : Option Nat :=
  (p.reverse.findIdx? fun x => x == c).map fun i => p.length - 1 - i

/-- `os.path.splitext(file_path)[1].lower()` (posix rules): the extension
starts at the last dot lying after the last path separator, provided some
character strictly between the separator and that dot is not itself a dot
(so dotfiles such as `.bashrc` have no extension); otherwise it is empty. -/
def splitext_ext (p : List Char) : List Char :=
  match rfindIdx p '.' with
  | none => []
  | some d =>
    let start : Nat :=
      match rfindIdx p '/' with
      | none => 0
      | some i => i + 1
    if (List.range' start (d - start)).any (fun j => p.getD j '.' != '.') then
      (p.drop d).map Char.toLower
    else []

/-- `_is_known_binary_type(content)`: the content starts with one of the
eight magic-byte signatures (the dict in the function lists the same byte
strings as `BINARY_MARKERS`). -/
def is_known_binary_type (content : List Nat) : Bool :=
  BINARY_MARKERS.any fun m => decide (m <+: content)

/-- `_detect_file(file_path, is_sensitive_dir)`. Returns the verdict, the
successor state and the number of file reads performed. `fs` maps a path to
the result of `open(path,'rb').read(4096)`, `none` modelling the read
failure swallowed by the inner `except` (which returns the directory hint).
Branches in source order: cache hit; extensionless file in a sensitive
directory (immediate `True`, no read); read failure; known binary type
(`False`); content scoring against the (possibly lowered) threshold, with
the verdict cached. Only the scoring branch writes the cache. -/
noncomputable def detect_file (env : Env) (st : DetectorState)
    (fs : List Char → Option (List Nat)) (file_path : List Char)
    (is_sensitive_dir : Bool) : Bool × DetectorState × Nat :=
  match cacheLookup st.cache file_path with
  | some v => (v, st, 0)
  | none =>
    if splitext_ext file_path = [] ∧ is_sensitive_dir = true then
      (true, st, 0)
    else
      match fs file_path with
      | none => (is_sensitive_dir, st, 1)
      | some bytes =>
        let content := bytes.take 4096
        if is_known_binary_type content then (false, st, 1)
        else
          let score := analyze_content env st.learned_patterns content
          let threshold :=
            if is_sensitive_dir then st.current_threshold * (7 / 10)
            else st.current_threshold
          let is_sensitive : Bool := decide (threshold < score)
          (is_sensitive,
            { st with cache := (file_path, is_sensitive) :: st.cache }, 1)

/-- Python `str.split()` on a character list: split on whitespace runs,
discarding empty pieces. -/
def splitWs (text : List Char) : List (List Char) :=
  (text.splitOnP fun c => c.isWhitespace).filter fun w => w ≠ []

/-- The context-extraction loop of `_learn_from_file`: for every position `i`
whose word is exactly a configured keyword, join
`words[max(0, i-2) : min(len(words), i+3)]` with single spaces. -/
def contextWindows (words : List (List Char)) : List (List Char) :=
  (List.range words.length).filterMap fun i =>
    if words.getD i [] ∈ SENSITIVE_KEYWORDS then
      some (List.intercalate [' '] ((words.drop (i - 2)).take (min words.length (i + 3) - (i - 2))))
    else none

/-- `_learn_from_file(file_path, is_sensitive_dir)` with the read result made
explicit (`none`: the read raised; the outer `except` logs and leaves the
state unchanged). Empty content returns immediately. Otherwise the contexts
harvested from the decoded, lower-cased, whitespace-split text are added to
the learned set, and — only for a sensitive directory — the score of the
content (computed against the freshly updated learned set, as in the source)
is recorded into the threshold history. -/
noncomputable def learn_from_file (env : Env) (st : DetectorState)
    (read : Option (List Nat)) (is_sensitive_dir : Bool) : DetectorState :=
  match read with
  | none => st
  | some bytes =>
    let content := bytes.take 4096
    if content = [] then st
    else
      let text := env.decodeLower content
      let st1 : DetectorState :=
        { st with learned_patterns :=
            st.learned_patterns ∪ (contextWindows (splitWs text)).toFinset }
      if is_sensitive_dir then
        record_sample st1 (analyze_content env st1.learned_patterns content)
      else st1

/-- The per-file result label of `_process_batch` on success:
`已学习` in learning mode, else `敏感`/`常规` from the verdict. -/
def ok_label (is_learning : Bool) (verdict : Bool) : List Char :=
  if is_learning then "已学习".toList
  else if verdict then "敏感".toList else "常规".toList

/-- The per-file result label of the `except` branch of `_process_batch`:
`学习失败` in learning mode, the fail-safe `敏感` in detect mode. -/
def fail_label (is_learning : Bool) : List Char :=
  if is_learning then "学习失败".toList else "敏感".toList

/-- `_process_batch(file_batch, directory, is_learning)` with the per-file
body abstracted: `step st f` models running `_learn_from_file` or
`_detect_file` on file `f` in state `st`, returning `Except.error ()` when
the body raises (in which case the loop logs, appends the fail-safe label
with the state as the handler left it, and continues with the next file). -/
def process_batch (step : DetectorState → List Char → Except Unit (DetectorState × Bool))
    (is_learning : Bool) :
    DetectorState → List (List Char) → DetectorState × List (List Char × List Char)
  | st, [] => (st, [])
  | st, f :: fs =>
    match step st f with
    | Except.ok (st', v) =>
      let rest := process_batch step is_learning st' fs
      (rest.1, (f, ok_label is_learning v) :: rest.2)
    | Except.error _ =>
      let rest := process_batch step is_learning st fs
      (rest.1, (f, fail_label is_learning) :: rest.2)

/-- A detect-mode run: the sequence of `_detect_file` calls a fixed-hint run
performs, threading the detector state (each call may see a different file
system, covering re-reads and content changes). -/
noncomputable def run_detect (env : Env) (hint : Bool) (st : DetectorState)
    (calls : List ((List Char → Option (List Nat)) × List Char)) : DetectorState :=
  calls.foldl (fun s c => (detect_file env s c.1 c.2 hint).2.1) st

/-- The cache keys a detect run with a sensitive directory hint can create:
only the scoring branch writes the cache, and under a sensitive hint that
branch is reachable only for paths with an extension. -/
def cache_paths_have_ext (st : DetectorState) : Prop :=
  ∀ p v, cacheLookup st.cache p = some v → splitext_ext p ≠ []

/-- A concrete environment used for closed test inputs over pure-ASCII
buffers: on bytes below 128, Python's `decode('utf-8', errors='ignore')`
maps each byte to the corresponding character, and `.lower()` lowercases it;
`regexHit` is instantiated as false, agreeing with the `re` engine on the
digit-free test texts used below. -/
def asciiLowerEnv : Env :=
  { decodeLower := fun bs =>
      bs.filterMap fun b => if b < 128 then some (Char.ofNat b).toLower else none
    regexHit := fun _ => false }

/-- A sequence of `recordSample` calls in order (the threshold updates a
learning run performs on its sensitive samples). -/
def record_samples (st : DetectorState) (l : List ℚ) : DetectorState :=
  l.foldl record_sample st

/-- A concrete environment used for closed test inputs. It agrees with
Python's facilities on every input these tests use: `b''.decode('utf-8',
errors='ignore').lower()` is `''`, and no pattern of
`RE_SENSITIVE_PATTERNS` matches `''` (every pattern requires at least one
character). -/
def emptyTextEnv : Env :=
  { decodeLower := fun _ => []
    regexHit := fun _ => false }

/-- Empty content has entropy zero. -/
theorem calculate_entropy_nil : calculate_entropy [] = 0 := by
  simp [calculate_entropy]

/-- A buffer holding one repeated byte value has entropy zero: its histogram
has a single class of probability one, and `log2 1 = 0`. -/
theorem calculate_entropy_replicate (n : ℕ) (b : ℕ) :
    calculate_entropy (List.replicate n b) = 0 := by
  rcases Nat.eq_zero_or_pos n with hn | hn
  · subst hn; simp [calculate_entropy]
  · have hne : List.replicate n b ≠ [] := by
      simp [List.replicate_eq_nil_iff, Nat.pos_iff_ne_zero.mp hn]
    rw [calculate_entropy, if_neg hne,
      List.toFinset_replicate_of_ne_zero (Nat.pos_iff_ne_zero.mp hn)]
    rw [Finset.sum_singleton]
    have hc : (List.replicate n b).count b = n := by simp
    rw [hc, List.length_replicate]
    have hcast : ((n : ℝ) / (n : ℝ)) = 1 := by
      rw [div_self]
      exact_mod_cast Nat.pos_iff_ne_zero.mp hn
    rw [hcast, Real.logb_one, mul_zero, neg_zero]

/-- Claim C9: `_calculate_entropy` computes the Shannon entropy
`-Σ p(b) * log2 (p(b))` over the byte-value histogram; the empty buffer has
entropy 0, and any buffer consisting of a single repeated byte value, of any
length, has entropy 0. -/
theorem C9_entropy_shannon :
    (∀ data : List Nat, calculate_entropy data = shannonEntropy data)
    ∧ calculate_entropy [] = 0
    ∧ ∀ (n : ℕ) (b : ℕ), calculate_entropy (List.replicate n b) = 0 := by
  refine ⟨fun data => ?_, calculate_entropy_nil, calculate_entropy_replicate⟩
  by_cases h : data = []
  · subst h; simp [calculate_entropy, shannonEntropy]
  · rw [calculate_entropy, if_neg h, shannonEntropy]
    rw [← Finset.sum_neg_distrib]

/-- A boolean-gated bonus with a non-negative weight is non-negative. -/
theorem bonus_nonneg (b : Bool) {c : ℚ} (hc : 0 ≤ c) :
    0 ≤ if b = true then c else 0 := by
  cases b <;> simp [hc]

/-- Turning a boolean signal on cannot lower its bonus. -/
theorem bonus_mono {c : ℚ} (hc : 0 ≤ c) :
    (if (false : Bool) = true then c else 0) ≤ (if (true : Bool) = true then c else 0) := by
  simp [hc]

open scoped Classical in
/-- Claim C1: the score starts at 0, adds 0.3 for a binary marker anywhere in
the buffer, `0.1 * min(keywordHits, 5)` over the decoded lower-cased text,
a flat 0.2 if any configured regular expression matches, 0.3 if any learned
pattern occurs as a substring, 0.2 if the byte entropy exceeds 6.5, and the
result is clamped to `[0, 1]`. -/
theorem C1_score_formula (env : Env) (learned : Finset (List Char)) (content : List Nat) :
    analyze_content env learned content =
      max 0 (min 1 ((if hasBinaryMarker content then 3 / 10 else 0)
        + 1 / 10 * ((min (keywordHitCount (env.decodeLower content)) 5 : ℕ) : ℚ)
        + (if env.regexHit (env.decodeLower content) then 2 / 10 else 0)
        + (if learnedHit learned (env.decodeLower content) then 3 / 10 else 0)
        + (if 13 / 2 < calculate_entropy content then 2 / 10 else 0)))
    ∧ 0 ≤ analyze_content env learned content
    ∧ analyze_content env learned content ≤ 1 := by
  have hguard : (if highEntropy content then (2 : ℚ) / 10 else 0)
      = (if 13 / 2 < calculate_entropy content then (2 : ℚ) / 10 else 0) := by
    by_cases h : content = []
    · subst h
      rw [if_neg, if_neg]
      · rw [calculate_entropy_nil]; norm_num
      · simp [highEntropy]
    · simp only [highEntropy, h, ne_eq, not_false_eq_true, true_and, decide_eq_true_eq]
  have hsum : (0 : ℚ) ≤ (if hasBinaryMarker content then 3 / 10 else 0)
      + 1 / 10 * ((min (keywordHitCount (env.decodeLower content)) 5 : ℕ) : ℚ)
      + (if env.regexHit (env.decodeLower content) then 2 / 10 else 0)
      + (if learnedHit learned (env.decodeLower content) then 3 / 10 else 0)
      + (if highEntropy content then 2 / 10 else 0) := by
    refine add_nonneg (add_nonneg (add_nonneg (add_nonneg
      (bonus_nonneg _ (by norm_num)) (by positivity))
      (bonus_nonneg _ (by norm_num))) (bonus_nonneg _ (by norm_num)))
      (bonus_nonneg _ (by norm_num))
  constructor
  · rw [analyze_content]
    rw [← hguard]
    rw [max_eq_right (le_min (by norm_num) hsum)]
  constructor
  · rw [analyze_content]
    exact le_min (by norm_num) hsum
  · rw [analyze_content]
    exact min_le_left _ _

/-- Claim C8: the score is `scoreOfSignals` applied to the five extracted
signals, and `scoreOfSignals` is monotone in every signal (and non-negative),
so removing any single contributing signal can only decrease or keep equal
the score. -/
theorem C8_score_monotone :
    (∀ env learned content,
      analyze_content env learned content =
        scoreOfSignals (hasBinaryMarker content)
          (keywordHitCount (env.decodeLower content))
          (env.regexHit (env.decodeLower content))
          (learnedHit learned (env.decodeLower content))
          (highEntropy content))
    ∧ (∀ k p l e, scoreOfSignals false k p l e ≤ scoreOfSignals true k p l e)
    ∧ (∀ b k₁ k₂ p l e, k₁ ≤ k₂ → scoreOfSignals b k₁ p l e ≤ scoreOfSignals b k₂ p l e)
    ∧ (∀ b k l e, scoreOfSignals b k false l e ≤ scoreOfSignals b k true l e)
    ∧ (∀ b k p e, scoreOfSignals b k p false e ≤ scoreOfSignals b k p true e)
    ∧ (∀ b k p l, scoreOfSignals b k p l false ≤ scoreOfSignals b k p l true)
    ∧ (∀ b k p l e, 0 ≤ scoreOfSignals b k p l e) := by
  refine ⟨fun env learned content => rfl, ?_, ?_, ?_, ?_, ?_, ?_⟩
  · intro k p l e
    unfold scoreOfSignals
    exact min_le_min le_rfl (add_le_add (add_le_add (add_le_add (add_le_add
      (bonus_mono (by norm_num)) le_rfl) le_rfl) le_rfl) le_rfl)
  · intro b k₁ k₂ p l e h
    unfold scoreOfSignals
    have hkw : 1 / 10 * ((min k₁ 5 : ℕ) : ℚ) ≤ 1 / 10 * ((min k₂ 5 : ℕ) : ℚ) := by
      have hle : ((min k₁ 5 : ℕ) : ℚ) ≤ ((min k₂ 5 : ℕ) : ℚ) := by
        exact_mod_cast min_le_min h le_rfl
      linarith
    exact min_le_min le_rfl (add_le_add (add_le_add (add_le_add (add_le_add
      le_rfl hkw) le_rfl) le_rfl) le_rfl)
  · intro b k l e
    unfold scoreOfSignals
    exact min_le_min le_rfl (add_le_add (add_le_add (add_le_add (add_le_add
      le_rfl le_rfl) (bonus_mono (by norm_num))) le_rfl) le_rfl)
  · intro b k p e
    unfold scoreOfSignals
    exact min_le_min le_rfl (add_le_add (add_le_add (add_le_add (add_le_add
      le_rfl le_rfl) le_rfl) (bonus_mono (by norm_num))) le_rfl)
  · intro b k p l
    unfold scoreOfSignals
    exact min_le_min le_rfl (add_le_add (add_le_add (add_le_add (add_le_add
      le_rfl le_rfl) le_rfl) le_rfl) (bonus_mono (by norm_num)))
  · intro b k p l e
    unfold scoreOfSignals
    refine le_min (by norm_num) ?_
    refine add_nonneg (add_nonneg (add_nonneg (add_nonneg
      (bonus_nonneg _ (by norm_num)) (by positivity))
      (bonus_nonneg _ (by norm_num))) (bonus_nonneg _ (by norm_num)))
      (bonus_nonneg _ (by norm_num))

/-- Witness for C8 at concrete signals: with two keyword hits and no other
signal, adding the binary-marker signal cannot lower the score, and the
keyword count is monotone from 1 hit to 3 hits. -/
theorem C8_score_monotone_witness :
    scoreOfSignals false 2 false false false ≤ scoreOfSignals true 2 false false false
    ∧ (1 : ℕ) ≤ 3
    ∧ scoreOfSignals true 1 false false false ≤ scoreOfSignals true 3 false false false :=
  ⟨C8_score_monotone.2.1 2 false false false,
   by decide,
   C8_score_monotone.2.2.1 true 1 3 false false false (by decide)⟩

/-- Claim C7: `load_rules` returns `False` and leaves the state — in
particular the built-in defaults threshold 0.35, empty learned set and empty
history — completely untouched both when the rules file is absent and when
reading or parsing it fails, and `save_rules` returns `False` on a write
failure; both are total functions of the model (no exception reaches the
caller). -/
theorem C7_load_save_failure :
    (∀ st : DetectorState, load_rules st none = (st, false))
    ∧ (∀ st : DetectorState, load_rules st (some none) = (st, false))
    ∧ (load_rules initState (some none)).1.current_threshold = 35 / 100
    ∧ (load_rules initState (some none)).1.learned_patterns = ∅
    ∧ (load_rules initState (some none)).1.threshold_history = []
    ∧ save_rules (Except.error ()) = false
    ∧ save_rules (Except.ok ()) = true := by
  exact ⟨fun st => rfl, fun st => rfl, rfl, rfl, rfl, rfl, rfl⟩

/-- Claim C6: in `_process_batch` every file of the batch produces exactly
one result in input order; a file whose processing step raises is mapped to
the fail-safe label (`敏感`, sensitive, in detect mode; `学习失败`, learning
failure, in learning mode) while the remaining files are still processed; in
particular even a step that fails on every single file still yields a
full-length result list, so no per-file exception aborts the run. -/
theorem C6_batch_error_containment :
    (∀ step lm st batch, (process_batch step lm st batch).2.map Prod.fst = batch)
    ∧ (∀ step lm st batch f lbl, (f, lbl) ∈ (process_batch step lm st batch).2 →
        lbl = fail_label lm ∨ ∃ v, lbl = ok_label lm v)
    ∧ (∀ step lm st batch, (∀ s f, step s f = Except.error ()) →
        (process_batch step lm st batch).2 = batch.map fun f => (f, fail_label lm))
    ∧ fail_label false = "敏感".toList
    ∧ fail_label true = "学习失败".toList := by
  refine ⟨?_, ?_, ?_, rfl, rfl⟩
  · intro step lm st batch
    induction batch generalizing st with
    | nil => rfl
    | cons f fs ih =>
      rw [process_batch]
      cases h : step st f with
      | ok p => simp [ih]
      | error e => simp [ih]
  · intro step lm st batch f lbl hmem
    induction batch generalizing st with
    | nil => simp [process_batch] at hmem
    | cons g gs ih =>
      rw [process_batch] at hmem
      cases h : step st g with
      | ok p =>
        rw [h] at hmem
        rcases List.mem_cons.mp hmem with h1 | h2
        · exact Or.inr ⟨p.2, congrArg Prod.snd h1⟩
        · exact ih _ h2
      | error e =>
        rw [h] at hmem
        rcases List.mem_cons.mp hmem with h1 | h2
        · exact Or.inl (congrArg Prod.snd h1)
        · exact ih _ h2
  · intro step lm st batch hstep
    induction batch generalizing st with
    | nil => rfl
    | cons f fs ih =>
      rw [process_batch, hstep st f]
      simp [ih]

/-- Witness for C6: a step that raises on every file turns the two-file batch
`[a.txt, b.txt]` in detect mode into two fail-safe `敏感` results, and that
result list indeed carries only fail-safe or success labels. -/
theorem C6_batch_error_containment_witness :
    (process_batch (fun _ _ => Except.error ()) false initState
        ["a.txt".toList, "b.txt".toList]).2 =
      [("a.txt".toList, fail_label false), ("b.txt".toList, fail_label false)]
    ∧ (fail_label false = fail_label false ∨ ∃ v, fail_label false = ok_label false v) := by
  constructor
  · exact C6_batch_error_containment.2.2.1 _ false initState _ (fun _ _ => rfl)
  · exact C6_batch_error_containment.2.1 (fun _ _ => Except.error ()) false initState
      ["a.txt".toList, "b.txt".toList] ("a.txt".toList) (fail_label false) (by decide)

/-- The updated history of `recordSample` is never empty. -/
theorem clipped_history_ne_nil (h : List ℚ) (s : ℚ) : clipped_history h s ≠ [] := by
  unfold clipped_history
  split_ifs with hgt
  · intro habs
    have hlen := congrArg List.length habs
    simp [List.length_tail] at hlen
    subst hlen
    simp at hgt
  · simp

/-- Below capacity nothing is evicted. -/
theorem clipped_history_of_le (h : List ℚ) (s : ℚ) (hl : h.length ≤ 999) :
    clipped_history h s = h ++ [s] := by
  unfold clipped_history
  rw [if_neg]
  simp
  omega

/-- At capacity the oldest entry is evicted. -/
theorem clipped_history_of_eq (h : List ℚ) (s : ℚ) (hl : h.length = 1000) :
    clipped_history h s = h.tail ++ [s] := by
  unfold clipped_history
  rw [if_pos (by simp [hl])]
  cases h with
  | nil => simp at hl
  | cons a t => rfl

/-- `recordSample` always sets the threshold to the mean of the updated
history. -/
theorem record_sample_threshold (st : DetectorState) (s : ℚ) :
    (record_sample st s).current_threshold =
      (clipped_history st.threshold_history s).sum /
        ((clipped_history st.threshold_history s).length : ℚ) := by
  unfold record_sample
  exact if_neg (clipped_history_ne_nil _ _)

/-- `recordSample` re-establishes the Rule Store invariant from any state
whose history is within capacity. -/
theorem record_sample_keeps_invariant (st : DetectorState) (s : ℚ)
    (hl : st.threshold_history.length ≤ 1000) :
    rule_invariant (record_sample st s) := by
  constructor
  · intro _
    exact record_sample_threshold st s
  · show (clipped_history st.threshold_history s).length ≤ 1000
    unfold clipped_history
    split_ifs with hgt
    · simp [List.length_tail]
      omega
    · simp at hgt ⊢
      omega

/-- The characterization of iterated `recordSample` from the initial state:
within capacity the history is exactly the recorded samples in order and the
threshold their mean. -/
theorem record_samples_spec (l : List ℚ) (hl : l.length ≤ 1000) :
    (record_samples initState l).threshold_history = l ∧
    (l ≠ [] → (record_samples initState l).current_threshold = l.sum / (l.length : ℚ)) := by
  induction l using List.reverseRecOn with
  | nil => exact ⟨rfl, fun h => absurd rfl h⟩
  | append_singleton l s ih =>
    have hl' : l.length ≤ 999 := by
      simp at hl
      omega
    obtain ⟨ih1, _⟩ := ih (le_trans hl' (by omega))
    have hstep : record_samples initState (l ++ [s]) =
        record_sample (record_samples initState l) s := by
      unfold record_samples
      rw [List.foldl_append]
      rfl
    have hclip : clipped_history (record_samples initState l).threshold_history s
        = l ++ [s] := by
      rw [ih1, clipped_history_of_le l s hl']
    constructor
    · rw [hstep]
      show clipped_history (record_samples initState l).threshold_history s = l ++ [s]
      exact hclip
    · intro _
      rw [hstep, record_sample_threshold, hclip]

/-- Claim C2 (amended): the invariant `threshold = mean(history)` (when
non-empty) together with `length(history) ≤ 1000` holds initially, is
re-established by every `recordSample` from a within-capacity state and
preserved by `addLearnedContext`; after `recordSample` of `k ≤ 1000` known
values the threshold is exactly their mean and the history lists them in
order; a further call at capacity evicts the oldest entry and recomputes the
mean over the most recent 1000. (`load` copies persisted values verbatim and
preserves the invariant only if the persisted data satisfies it, see the
counterexample.) -/
theorem C2_rule_store_invariant :
    rule_invariant initState
    ∧ (∀ st s, st.threshold_history.length ≤ 1000 → rule_invariant (record_sample st s))
    ∧ (∀ st c, rule_invariant st → rule_invariant (add_learned_context st c))
    ∧ (∀ l : List ℚ, l.length ≤ 1000 →
        (record_samples initState l).threshold_history = l ∧
        (l ≠ [] → (record_samples initState l).current_threshold = l.sum / (l.length : ℚ)))
    ∧ (∀ st s, st.threshold_history.length = 1000 →
        (record_sample st s).threshold_history = st.threshold_history.tail ++ [s] ∧
        (record_sample st s).current_threshold =
          (st.threshold_history.tail ++ [s]).sum /
            ((st.threshold_history.tail ++ [s]).length : ℚ)) := by
  refine ⟨⟨fun h => absurd rfl h, by simp [initState]⟩,
    record_sample_keeps_invariant, ?_, record_samples_spec, ?_⟩
  · intro st c hst
    exact hst
  · intro st s hlen
    have hclip := clipped_history_of_eq st.threshold_history s hlen
    exact ⟨hclip, by rw [record_sample_threshold, hclip]⟩

/-- Witness for C2 at concrete values: recording 1/2 then 1/4 from the
initial state leaves history `[1/2, 1/4]` and threshold `3/8`, their mean. -/
theorem C2_rule_store_invariant_witness :
    ([(1 : ℚ)/2, 1/4].length ≤ 1000)
    ∧ (record_samples initState [(1 : ℚ)/2, 1/4]).threshold_history = [(1 : ℚ)/2, 1/4]
    ∧ (record_samples initState [(1 : ℚ)/2, 1/4]).current_threshold = 3 / 8 := by
  have h := C2_rule_store_invariant.2.2.2.1 [(1 : ℚ)/2, 1/4] (by decide)
  refine ⟨by decide, h.1, ?_⟩
  rw [h.2 (by decide)]
  norm_num

/-- Counterexample for C2 as stated: `load_rules` is a Rule Store operation,
and loading a persisted record whose threshold (9/10) is not the mean of its
history ([1/10]) moves the store from the invariant-satisfying initial state
to a state violating the invariant. -/
theorem C2_counterexample :
    rule_invariant initState ∧
    ¬ rule_invariant (load_rules initState
        (some (some { patterns := some []
                      features := some []
                      threshold := some (9 / 10)
                      history := some [1 / 10] }))).1 := by
  constructor
  · exact ⟨fun h => absurd rfl h, by simp [initState]⟩
  · intro hinv
    have h1 := hinv.1 (by simp [load_rules])
    simp [load_rules] at h1
    norm_num at h1

/-- A cache hit returns the cached verdict with no read and no state change. -/
theorem detect_file_cache_hit (env : Env) (st : DetectorState)
    (fs : List Char → Option (List Nat)) (p : List Char) (hint : Bool) (v : Bool)
    (h : cacheLookup st.cache p = some v) :
    detect_file env st fs p hint = (v, st, 0) := by
  unfold detect_file
  rw [h]

/-- An uncached extensionless path under a sensitive hint returns `True`
immediately, with no read and no state change. -/
theorem detect_file_noext (env : Env) (st : DetectorState)
    (fs : List Char → Option (List Nat)) (p : List Char)
    (hc : cacheLookup st.cache p = none) (hx : splitext_ext p = []) :
    detect_file env st fs p true = (true, st, 0) := by
  unfold detect_file
  rw [hc]
  rw [if_pos ⟨hx, rfl⟩]

/-- The scoring branch: an uncached path that escapes the extensionless rule,
reads successfully and is not a known binary type is scored against the
effective threshold and the verdict is cached. -/
theorem detect_file_scored (env : Env) (st : DetectorState)
    (fs : List Char → Option (List Nat)) (p : List Char) (hint : Bool)
    (bytes : List Nat)
    (hc : cacheLookup st.cache p = none)
    (hx : ¬ (splitext_ext p = [] ∧ hint = true))
    (hr : fs p = some bytes)
    (hb : is_known_binary_type (bytes.take 4096) = false) :
    detect_file env st fs p hint =
      (decide ((if hint then st.current_threshold * (7 / 10) else st.current_threshold) <
          analyze_content env st.learned_patterns (bytes.take 4096)),
        { st with cache :=
            (p, decide ((if hint then st.current_threshold * (7 / 10) else st.current_threshold) <
              analyze_content env st.learned_patterns (bytes.take 4096))) :: st.cache },
        1) := by
  unfold detect_file
  rw [hc, if_neg hx, hr]
  simp only [hb]
  rfl

/-- The scorer yields 0 on the empty buffer (no marker, no text, no learned
pattern, zero entropy). -/
theorem analyze_content_empty : analyze_content emptyTextEnv ∅ [] = 0 := by
  have h1 : hasBinaryMarker [] = false := by decide
  have h2 : keywordHitCount [] = 0 := by decide
  have h4 : learnedHit ∅ [] = false := by decide
  have h5 : highEntropy [] = false := by decide
  simp [analyze_content, emptyTextEnv, h1, h2, h4, h5]

/-- Claim C3 (amended): for every uncached file path that has an extension or
whose directory hint is not sensitive, classification proceeds exactly as
claimed: a read failure returns the directory hint, content starting with a
known binary magic prefix returns false, and otherwise the verdict is
`score(buf) > T` with `T = threshold * 0.7` under a sensitive hint and
`T = threshold` otherwise. (An extensionless path under a sensitive hint
instead returns true before reading, see the counterexample.) -/
theorem C3_classify_flow (env : Env) (st : DetectorState)
    (fs : List Char → Option (List Nat)) (p : List Char) (hint : Bool)
    (hc : cacheLookup st.cache p = none)
    (hx : splitext_ext p ≠ [] ∨ hint = false) :
    (detect_file env st fs p hint).1 =
      match fs p with
      | none => hint
      | some bytes =>
        if is_known_binary_type (bytes.take 4096) then false
        else decide ((if hint then st.current_threshold * (7 / 10) else st.current_threshold) <
          analyze_content env st.learned_patterns (bytes.take 4096)) := by
  have hx' : ¬ (splitext_ext p = [] ∧ hint = true) := by
    rcases hx with h | h
    · exact fun hand => h hand.1
    · exact fun hand => by rw [h] at hand; exact Bool.false_ne_true hand.2
  cases hr : fs p with
  | none =>
    unfold detect_file
    rw [hc, if_neg hx', hr]
  | some bytes =>
    cases hb : is_known_binary_type (bytes.take 4096) with
    | true =>
      unfold detect_file
      rw [hc, if_neg hx', hr]
      simp only [hb]
      rfl
    | false =>
      rw [detect_file_scored env st fs p hint bytes hc hx' hr hb]
      simp only [hb]
      rfl

/-- Witness for C3: a fresh state, a path with the extension `.txt` and a
failing read produce the directory hint `false` as verdict. -/
theorem C3_classify_flow_witness :
    cacheLookup initState.cache ("a.txt".toList) = none
    ∧ (splitext_ext ("a.txt".toList) ≠ [] ∨ false = false)
    ∧ (detect_file emptyTextEnv initState (fun _ => none) ("a.txt".toList) false).1 = false := by
  refine ⟨rfl, Or.inr rfl, ?_⟩
  exact C3_classify_flow emptyTextEnv initState (fun _ => none) ("a.txt".toList) false rfl
    (Or.inr rfl)

/-- Counterexample for C3 as stated: the extensionless path `data` under a
sensitive hint, whose read succeeds with empty content that is not a known
binary type, is classified `true` although the claimed computation
`score > threshold * 0.7` yields `false` (the score is 0 and the effective
threshold 0.245): the no-extension rule fires before reading. -/
theorem C3_counterexample :
    (detect_file emptyTextEnv initState (fun _ => some []) ("data".toList) true).1 = true
    ∧ is_known_binary_type (([] : List Nat).take 4096) = false
    ∧ ¬ ((initState.current_threshold * (7 / 10)) <
        analyze_content emptyTextEnv initState.learned_patterns (([] : List Nat).take 4096)) := by
  refine ⟨rfl, rfl, ?_⟩
  show ¬ ((35 / 100 * (7 / 10) : ℚ) < analyze_content emptyTextEnv ∅ [])
  rw [analyze_content_empty]
  norm_num

/-- Claim C5 (amended): a Classification Cache entry is created only when
classification reaches the scoring step (cache miss, the extensionless
sensitive-hint rule does not fire, the read succeeds and the content is not
a known binary type); entries are never invalidated — every `_detect_file`
call preserves all existing entries and `_learn_from_file` never touches the
cache — and a later call on a cached path returns the cached verdict with no
read and no re-scoring, whatever the Rule Store state (threshold, learned
patterns) has become. -/
theorem C5_cache_policy :
    (∀ env st fs p hint bytes,
        cacheLookup st.cache p = none →
        ¬ (splitext_ext p = [] ∧ hint = true) →
        fs p = some bytes →
        is_known_binary_type (bytes.take 4096) = false →
        cacheLookup (detect_file env st fs p hint).2.1.cache p =
          some (detect_file env st fs p hint).1)
    ∧ (∀ env st fs p hint q v,
        cacheLookup st.cache q = some v →
        cacheLookup (detect_file env st fs p hint).2.1.cache q = some v)
    ∧ (∀ env st fs p hint v,
        cacheLookup st.cache p = some v →
        detect_file env st fs p hint = (v, st, 0))
    ∧ (∀ env st read hint, (learn_from_file env st read hint).cache = st.cache) := by
  refine ⟨?_, ?_, detect_file_cache_hit, ?_⟩
  · intro env st fs p hint bytes hc hx hr hb
    rw [detect_file_scored env st fs p hint bytes hc hx hr hb]
    show (if p = p then _ else _) = _
    rw [if_pos rfl]
  · intro env st fs p hint q v hq
    cases hcl : cacheLookup st.cache p with
    | some w =>
      rw [detect_file_cache_hit env st fs p hint w hcl]
      exact hq
    | none =>
      by_cases hx : splitext_ext p = [] ∧ hint = true
      · obtain ⟨hx1, hx2⟩ := hx
        subst hx2
        rw [detect_file_noext env st fs p hcl hx1]
        exact hq
      · cases hr : fs p with
        | none =>
          unfold detect_file
          rw [hcl, if_neg hx, hr]
          exact hq
        | some bytes =>
          cases hb : is_known_binary_type (bytes.take 4096) with
          | true =>
            unfold detect_file
            rw [hcl, if_neg hx, hr]
            simp only [hb]
            exact hq
          | false =>
            rw [detect_file_scored env st fs p hint bytes hcl hx hr hb]
            show (if p = q then _ else cacheLookup st.cache q) = some v
            rw [if_neg, hq]
            intro hpq
            rw [hpq] at hcl
            rw [hcl] at hq
            exact Option.noConfusion hq
  · intro env st read hint
    cases read with
    | none => rfl
    | some bytes =>
      by_cases hc : bytes.take 4096 = []
      · simp [learn_from_file, hc]
      · simp only [learn_from_file, hc, if_false, if_true]
        cases hint <;> rfl

/-- Witness for C5: a state whose cache maps `x` to `true` returns `true`
from the cache with zero reads, although its threshold was meanwhile changed
to 2 (a score can never exceed 1, so a fresh scoring could only say
`false`). -/
theorem C5_cache_policy_witness :
    cacheLookup [("x".toList, true)] ("x".toList) = some true
    ∧ detect_file emptyTextEnv
        { initState with current_threshold := 2, cache := [("x".toList, true)] }
        (fun _ => some []) ("x".toList) false =
      (true, { initState with current_threshold := 2, cache := [("x".toList, true)] }, 0) := by
  refine ⟨rfl, ?_⟩
  exact C5_cache_policy.2.2.1 emptyTextEnv
    { initState with current_threshold := 2, cache := [("x".toList, true)] }
    (fun _ => some []) ("x".toList) false true rfl

/-- Counterexample for C5 as stated: the path `a.zip`, whose content starts
with the ZIP magic bytes, is classified (verdict `false`) but its first
classification creates no cache entry at all — the early known-binary return
skips the cache write, so not every path gets an entry on first
classification. -/
theorem C5_counterexample :
    (detect_file emptyTextEnv initState (fun _ => some [0x50, 0x4B, 0x03, 0x04])
        ("a.zip".toList) false).1 = false
    ∧ (detect_file emptyTextEnv initState (fun _ => some [0x50, 0x4B, 0x03, 0x04])
        ("a.zip".toList) false).2.1.cache = [] := by
  exact ⟨rfl, rfl⟩

/-- The empty cache trivially contains only paths with extensions. -/
theorem cache_paths_have_ext_init : cache_paths_have_ext initState := by
  intro p v h
  exact Option.noConfusion h

/-- Under a sensitive directory hint, `_detect_file` only ever caches paths
that have an extension: the scoring branch (the only cache write) is
unreachable for an extensionless path because the no-extension rule returns
first. -/
theorem detect_file_preserves_ext_inv (env : Env) (st : DetectorState)
    (fs : List Char → Option (List Nat)) (p : List Char)
    (hinv : cache_paths_have_ext st) :
    cache_paths_have_ext (detect_file env st fs p true).2.1 := by
  cases hcl : cacheLookup st.cache p with
  | some w =>
    rw [detect_file_cache_hit env st fs p true w hcl]
    exact hinv
  | none =>
    by_cases hx : splitext_ext p = []
    · rw [detect_file_noext env st fs p hcl hx]
      exact hinv
    · cases hr : fs p with
      | none =>
        unfold detect_file
        rw [hcl, if_neg (fun hand => hx hand.1), hr]
        exact hinv
      | some bytes =>
        cases hb : is_known_binary_type (bytes.take 4096) with
        | true =>
          unfold detect_file
          rw [hcl, if_neg (fun hand => hx hand.1), hr]
          simp only [hb]
          exact hinv
        | false =>
          rw [detect_file_scored env st fs p true bytes hcl (fun hand => hx hand.1) hr hb]
          intro q w hq
          by_cases hpq : p = q
          · rw [← hpq]
            exact hx
          · refine hinv q w ?_
            have hq' : (if p = q then some _ else cacheLookup st.cache q) = some w := hq
            rwa [if_neg hpq] at hq'

/-- Every state reachable by a sensitive-hint detect run from the fresh
detector keeps only extension-bearing paths in its cache. -/
theorem run_detect_ext_inv (env : Env)
    (calls : List ((List Char → Option (List Nat)) × List Char)) :
    cache_paths_have_ext (run_detect env true initState calls) := by
  suffices h : ∀ st, cache_paths_have_ext st →
      cache_paths_have_ext (run_detect env true st calls) from
    h initState cache_paths_have_ext_init
  induction calls with
  | nil => exact fun st hst => hst
  | cons c cs ih =>
    intro st hst
    exact ih _ (detect_file_preserves_ext_inv env st c.1 c.2 hst)

/-- Claim C10: in a sensitive-hint run (any state reachable from the fresh
detector by detect calls under the sensitive hint), classifying a file whose
name has no extension returns `true` immediately and performs zero read
calls. -/
theorem C10_noext_sensitive (env : Env)
    (calls : List ((List Char → Option (List Nat)) × List Char))
    (fs : List Char → Option (List Nat)) (p : List Char)
    (hp : splitext_ext p = []) :
    (detect_file env (run_detect env true initState calls) fs p true).1 = true
    ∧ (detect_file env (run_detect env true initState calls) fs p true).2.2 = 0 := by
  have hmiss : cacheLookup (run_detect env true initState calls).cache p = none := by
    cases hcl : cacheLookup (run_detect env true initState calls).cache p with
    | none => rfl
    | some v => exact absurd hp (run_detect_ext_inv env calls p v hcl)
  rw [detect_file_noext env _ fs p hmiss hp]
  exact ⟨rfl, rfl⟩

/-- Witness for C10: on the fresh detector (the empty run) the extensionless
path `data` under the sensitive hint is classified `true` with zero reads. -/
theorem C10_noext_sensitive_witness :
    splitext_ext ("data".toList) = []
    ∧ (detect_file emptyTextEnv (run_detect emptyTextEnv true initState [])
        (fun _ => none) ("data".toList) true).1 = true
    ∧ (detect_file emptyTextEnv (run_detect emptyTextEnv true initState [])
        (fun _ => none) ("data".toList) true).2.2 = 0 := by
  have h := C10_noext_sensitive emptyTextEnv [] (fun _ => none) ("data".toList) (by decide)
  exact ⟨by decide, h.1, h.2⟩

/-- Every keyword position of the word list contributes its joined window to
the harvested contexts. -/
theorem mem_contextWindows (words : List (List Char)) (i : ℕ) (hi : i < words.length)
    (hk : words.getD i [] ∈ SENSITIVE_KEYWORDS) :
    List.intercalate [' ']
        ((words.drop (i - 2)).take (min words.length (i + 3) - (i - 2)))
      ∈ contextWindows words := by
  unfold contextWindows
  refine List.mem_filterMap.mpr ⟨i, List.mem_range.mpr hi, ?_⟩
  rw [if_pos hk]

/-- A sample with empty (truncated) content changes nothing. -/
theorem learn_from_file_nil (env : Env) (st : DetectorState) (bytes : List Nat)
    (hint : Bool) (h : bytes.take 4096 = []) :
    learn_from_file env st (some bytes) hint = st := by
  simp [learn_from_file, h]

/-- The learned set after a non-empty sample: the old set united with the
contexts harvested from the sample's text, for either hint. -/
theorem learn_from_file_learned (env : Env) (st : DetectorState) (bytes : List Nat)
    (hint : Bool) (h : bytes.take 4096 ≠ []) :
    (learn_from_file env st (some bytes) hint).learned_patterns =
      st.learned_patterns ∪
        (contextWindows (splitWs (env.decodeLower (bytes.take 4096)))).toFinset := by
  simp only [learn_from_file, h, if_false, if_true]
  cases hint <;> rfl

/-- Claim C4 (amended): for every sample with a non-empty buffer,
`_learn_from_file` splits the decoded lower-cased text on whitespace, and for
every word position exactly matching a configured keyword it joins the
window of up to 2 words before and up to 2 words after (clamped to the
sequence bounds) into one context string and inserts it into the learned set
(idempotently: repeating the sample adds nothing new); when the directory
hint is sensitive it moreover records the score of the buffer — computed
against the already-updated learned set, as in the source — via
`recordSample`, and otherwise only the learned set changes. A sample with
empty buffer, or whose read fails, changes nothing. -/
theorem C4_learn_from_sample :
    (∀ env st bytes hint, bytes.take 4096 ≠ [] →
        (learn_from_file env st (some bytes) hint).learned_patterns =
          st.learned_patterns ∪
            (contextWindows (splitWs (env.decodeLower (bytes.take 4096)))).toFinset)
    ∧ (∀ env st bytes hint, bytes.take 4096 ≠ [] →
        ∀ i, i < (splitWs (env.decodeLower (bytes.take 4096))).length →
          (splitWs (env.decodeLower (bytes.take 4096))).getD i [] ∈ SENSITIVE_KEYWORDS →
          List.intercalate [' ']
              (((splitWs (env.decodeLower (bytes.take 4096))).drop (i - 2)).take
                (min (splitWs (env.decodeLower (bytes.take 4096))).length (i + 3) - (i - 2)))
            ∈ (learn_from_file env st (some bytes) hint).learned_patterns)
    ∧ (∀ env st bytes, bytes.take 4096 ≠ [] →
        learn_from_file env st (some bytes) true =
          record_sample
            { st with learned_patterns :=
                st.learned_patterns ∪
                  (contextWindows (splitWs (env.decodeLower (bytes.take 4096)))).toFinset }
            (analyze_content env
              (st.learned_patterns ∪
                (contextWindows (splitWs (env.decodeLower (bytes.take 4096)))).toFinset)
              (bytes.take 4096)))
    ∧ (∀ env st bytes, bytes.take 4096 ≠ [] →
        learn_from_file env st (some bytes) false =
          { st with learned_patterns :=
              st.learned_patterns ∪
                (contextWindows (splitWs (env.decodeLower (bytes.take 4096)))).toFinset })
    ∧ (∀ env st read hint,
        (learn_from_file env (learn_from_file env st read hint) read hint).learned_patterns =
          (learn_from_file env st read hint).learned_patterns)
    ∧ (∀ env st hint, learn_from_file env st none hint = st) := by
  refine ⟨learn_from_file_learned, ?_, ?_, ?_, ?_, fun env st hint => rfl⟩
  · intro env st bytes hint h i hi hk
    rw [learn_from_file_learned env st bytes hint h]
    refine Finset.mem_union_right _ (List.mem_toFinset.mpr ?_)
    exact mem_contextWindows _ i hi hk
  · intro env st bytes h
    simp only [learn_from_file, h, if_false, if_true]
  · intro env st bytes h
    simp only [learn_from_file, h, if_false, if_true]
    rfl
  · intro env st read hint
    cases read with
    | none => rfl
    | some bytes =>
      by_cases h : bytes.take 4096 = []
      · rw [learn_from_file_nil env st bytes hint h, learn_from_file_nil env st bytes hint h]
      · rw [learn_from_file_learned env _ bytes hint h,
          learn_from_file_learned env st bytes hint h,
          Finset.union_assoc, Finset.union_self]

/-- Witness for C4: learning the ASCII sample `my password is abc` inserts
the full four-word context around the exact keyword `password` (position 1)
into the learned set. -/
theorem C4_learn_from_sample_witness :
    ("my password is abc".toList.map Char.toNat).take 4096 ≠ []
    ∧ 1 < (splitWs (asciiLowerEnv.decodeLower
        (("my password is abc".toList.map Char.toNat).take 4096))).length
    ∧ (splitWs (asciiLowerEnv.decodeLower
        (("my password is abc".toList.map Char.toNat).take 4096))).getD 1 []
        ∈ SENSITIVE_KEYWORDS
    ∧ List.intercalate [' ']
        (((splitWs (asciiLowerEnv.decodeLower
            (("my password is abc".toList.map Char.toNat).take 4096))).drop (1 - 2)).take
          (min (splitWs (asciiLowerEnv.decodeLower
            (("my password is abc".toList.map Char.toNat).take 4096))).length (1 + 3) - (1 - 2)))
      ∈ (learn_from_file asciiLowerEnv initState
          (some ("my password is abc".toList.map Char.toNat)) false).learned_patterns := by
  refine ⟨by decide, by decide, by decide, ?_⟩
  exact C4_learn_from_sample.2.1 asciiLowerEnv initState
    ("my password is abc".toList.map Char.toNat) false (by decide) 1 (by decide) (by decide)

/-- Counterexample for C4 as stated: a sample with empty buffer under a
sensitive hint is a no-op — `_learn_from_file` returns before scoring — so
the threshold history stays empty, while the claimed unconditional
`recordSample(score(buf))` would have made it the non-empty `[score]`. -/
theorem C4_counterexample :
    learn_from_file emptyTextEnv initState (some []) true = initState
    ∧ (record_sample initState
        (analyze_content emptyTextEnv initState.learned_patterns [])).threshold_history =
      [analyze_content emptyTextEnv initState.learned_patterns []] := by
  exact ⟨rfl, rfl⟩

end Detector
